import Mathlib

/-!
Verification of the appsec WAF manager of dd-trace-go
(src/internal/appsec/waf.go) against its specification.

The pure configuration-to-action logic, the listener factory and the swap
routine are shallowly embedded from the Go source. External collaborators
that are not part of the sources (the rule compiler, the sharedsec action
constructors, the dyngo operation bus, the tags holder) are modelled from
the specification, each such definition marked in its doc comment.
-/

namespace DdTraceGo

/-- Parameters of a declarative rule-set action entry. Embeds the fields of
config.ActionParameters read by src/internal/appsec/waf.go: StatusCode,
GRPCStatusCode (a nullable integer), Type (the response-content type, named
typ here) and Location. -/
structure ActionParameters where
  StatusCode : Int
  GRPCStatusCode : Option Int
  typ : String
  Location : String
  deriving Repr, DecidableEq

/-- One declarative action entry of a rule set (config.ActionEntry): an
identifier, a type string and parameters. The Go field Type is named typ. -/
structure ActionEntry where
  ID : String
  typ : String
  Parameters : ActionParameters
  deriving Repr, DecidableEq

/-- Modelled from the spec: sharedsec actions (the emitter/sharedsec package
is not under src/). Section 3 of the spec: a block action carries an HTTP
status code, a protocol-specific abort code and a response-content type; a
redirect action carries a status code and a target location. The
constructors record the arguments passed to sharedsec.NewBlockRequestAction
and sharedsec.NewRedirectRequestAction at the call sites in
src/internal/appsec/waf.go. -/
inductive Action where
  | blockRequest (status : Int) (grpcCode : Int) (typ : String)
  | redirectRequest (status : Int) (location : String)
  deriving Repr, DecidableEq

/-- Modelled from the spec: the ActionRegistry (sharedsec.Actions, a Go map
from action identifier to action), represented as a lookup function. -/
def Actions : Type := String → Option Action

/-- Go map assignment actions[k] = a: a later assignment overrides an
earlier one on key collision. -/
def Actions.set (m : Actions) (k : String) (a : Action) : Actions :=
  fun q => if q = k then some a else m q

/-- Shallow embedding of actionFromEntry (src/internal/appsec/waf.go lines
83-97). A block_request entry defaults its gRPC code to 10 (Aborted) when
the parameter is absent; entries of unknown type are logged and yield no
action. -/
def actionFromEntry (e : ActionEntry) : Option Action :=
  match e.typ with
  | "block_request" =>
      some (Action.blockRequest e.Parameters.StatusCode
        (e.Parameters.GRPCStatusCode.getD 10) e.Parameters.typ)
  | "redirect_request" =>
      some (Action.redirectRequest e.Parameters.StatusCode e.Parameters.Location)
  | _ => none

/-- Shallow embedding of config.RulesFragment restricted to what waf.go
reads directly: the declared action entries (rules.Actions). The rule
patterns themselves are opaque to this core and consumed only by the
external compiler. -/
structure RulesFragment where
  Actions : List ActionEntry
  deriving Repr, DecidableEq

/-- Modelled from the spec: the opaque compiled engine handle returned by
the external compiler, represented by an identity and the set of addresses
it advertises (handle.addresses() in section 1 of the spec). -/
structure RawHandle where
  id : Nat
  addresses : List String
  deriving Repr, DecidableEq

/-- Modelled from the spec: the outcome of the external rule compiler
waf.NewHandle, which the spec treats as an opaque collaborator returning a
handle and an error. -/
structure CompileOutcome where
  err : Option String
  handle : RawHandle
  deriving Repr, DecidableEq

/-- Shallow embedding of the wafHandle struct (waf.go lines 33-37): the
compiled engine handle together with the action registry derived from the
same rule set. -/
structure wafHandle where
  handle : RawHandle
  actions : Actions

/-- The default built-in block action installed by newWAFHandle (waf.go
line 103): HTTP status 403, gRPC code 10, response-content type auto. -/
def defaultBlockAction : Action := Action.blockRequest 403 10 "auto"

/-- The body of the action-registry loop of newWAFHandle (waf.go lines
106-111): entries whose type is recognized are stored under their ID,
entries yielding no action are dropped. -/
def registerEntry (acc : Actions) (e : ActionEntry) : Actions :=
  match actionFromEntry e with
  | some a => acc.set e.ID a
  | none => acc

/-- Shallow embedding of newWAFHandle (waf.go lines 99-116): the registry
starts from the default built-in block entry, then the declared entries are
folded in; the wrapped handle is returned together with the compile error. -/
def newWAFHandle (out : CompileOutcome) (rules : RulesFragment) : wafHandle × Option String :=
  let init : Actions := Actions.set (fun _ => none) "block" defaultBlockAction
  let actions := rules.Actions.foldl registerEntry init
  (⟨out.handle, actions⟩, out.err)

/-- The three instrumented protocols of the listener factory
(graphqlsec, grpcsec, httpsec). -/
inductive Protocol where
  | graphql
  | grpc
  | http
  deriving Repr, DecidableEq

/-- Modelled from the spec: the per-protocol address capability interface
(section 9: each protocol adapter exposes a pure capability function
address to supported). The Go functions graphqlsec.SupportsAddress,
grpcsec.SupportsAddress and httpsec.SupportsAddress are not under src/, so
the factory is parameterized by the capability function. -/
def Support : Type := Protocol → String → Bool

/-- Modelled from the spec: the injected rate limiter is opaque to the
factory; only its identity is tracked. -/
abbrev Limiter : Type := Nat

/-- Shallow embedding of the fields of config.Config that waf.go reads when
building listeners: the WAF evaluation timeout (cfg.WAFTimeout) and the API
security configuration (cfg.APISec, opaque, passed only to the HTTP
listener). -/
structure Config where
  WAFTimeout : Nat
  APISec : Nat
  deriving Repr, DecidableEq

/-- Modelled from the spec: a constructed protocol WAF event listener
records exactly the arguments of the NewWAFEventListener call sites in
waf.go lines 154-167: the protocol, the engine handle, the action registry,
the bound address subset, the evaluation timeout, the shared limiter, and
for HTTP additionally the API security configuration. -/
structure Listener where
  protocol : Protocol
  handle : RawHandle
  actions : Actions
  boundAddresses : Finset String
  timeout : Nat
  limiter : Limiter
  apisec : Option Nat

/-- Accumulator of the address-partition loop of newWAFEventListeners
(waf.go lines 126-147): the three per-protocol address sets and the list of
addresses supported by no protocol. -/
structure AddressPartition where
  graphQLAddresses : Finset String
  grpcAddresses : Finset String
  httpAddresses : Finset String
  notSupported : List String

/-- Shallow embedding of one iteration of the loop over ruleAddresses
(waf.go lines 130-147): the address is added to the set of every protocol
that supports it, and appended to notSupported when no protocol does. -/
def partitionStep (supports : Support) (acc : AddressPartition) (address : String) :
    AddressPartition :=
  let supported := supports .graphql address || supports .grpc address || supports .http address
  { graphQLAddresses :=
      if supports .graphql address then insert address acc.graphQLAddresses
      else acc.graphQLAddresses
    grpcAddresses :=
      if supports .grpc address then insert address acc.grpcAddresses
      else acc.grpcAddresses
    httpAddresses :=
      if supports .http address then insert address acc.httpAddresses
      else acc.httpAddresses
    notSupported :=
      if supported then acc.notSupported else acc.notSupported ++ [address] }

/-- The full address-partition loop of newWAFEventListeners over the
advertised rule addresses (waf.go lines 126-147). -/
def partitionAddresses (supports : Support) (ruleAddresses : List String) : AddressPartition :=
  ruleAddresses.foldl (partitionStep supports) ⟨∅, ∅, ∅, []⟩

/-- Selects the address set of one protocol from the partition. -/
def AddressPartition.ofProtocol (p : AddressPartition) : Protocol → Finset String
  | .graphql => p.graphQLAddresses
  | .grpc => p.grpcAddresses
  | .http => p.httpAddresses

/-- Shallow embedding of newWAFEventListeners (waf.go lines 118-169): an
empty advertised address list is a fatal error; otherwise the addresses are
partitioned by protocol capability and one listener is appended, in the
fixed order GraphQL, gRPC, HTTP, for each protocol whose address set is
non-empty. Unsupported addresses are only logged. -/
def newWAFEventListeners (supports : Support) (waf : wafHandle) (cfg : Config)
    (l : Limiter) : Except String (List Listener) :=
  let ruleAddresses := waf.handle.addresses
  if ruleAddresses.length = 0 then
    Except.error "no addresses found in the rule"
  else
    let p := partitionAddresses supports ruleAddresses
    let listeners : List Listener :=
      (if 0 < p.graphQLAddresses.card then
        [⟨.graphql, waf.handle, waf.actions, p.graphQLAddresses, cfg.WAFTimeout, l, none⟩]
       else [])
      ++ (if 0 < p.grpcAddresses.card then
        [⟨.grpc, waf.handle, waf.actions, p.grpcAddresses, cfg.WAFTimeout, l, none⟩]
       else [])
      ++ (if 0 < p.httpAddresses.card then
        [⟨.http, waf.handle, waf.actions, p.httpAddresses, cfg.WAFTimeout, l, some cfg.APISec⟩]
       else [])
    Except.ok listeners

/-- The state of the appsec manager read and written by swapWAF: the
configuration, the shared limiter and the currently installed handle. -/
structure appsec where
  cfg : Config
  limiter : Limiter
  wafHandle : Option wafHandle

/-- Side effects of swapWAF recorded in program order: closing a handle
(handle.Close()) and hot-swapping the dyngo root operation with the
listeners registered on the fresh root. -/
inductive WafEvent where
  | closeHandle (h : wafHandle)
  | swapRoot (listeners : List Listener)

/-- Result of one swapWAF call: the final manager state, the returned error
and the recorded side effects. -/
structure SwapResult where
  state : appsec
  err : Option String
  events : List WafEvent

/-- Shallow embedding of swapWAF (waf.go lines 39-81). The external compile
outcome is a parameter. A compile error is returned unchanged before the
deferred close is installed; a listener-construction error closes the new
handle and returns; on success the root is swapped, the new handle becomes
current and the old handle, when present, has Close called on it. -/
def swapWAF (supports : Support) (out : CompileOutcome) (rules : RulesFragment)
    (a : appsec) : SwapResult :=
  let hn := newWAFHandle out rules
  let newHandle := hn.1
  match hn.2 with
  | some e => ⟨a, some e, []⟩
  | none =>
    match newWAFEventListeners supports newHandle a.cfg a.limiter with
    | Except.error e => ⟨a, some e, [WafEvent.closeHandle newHandle]⟩
    | Except.ok listeners =>
      let oldHandle := a.wafHandle
      let a2 : appsec := { a with wafHandle := some newHandle }
      match oldHandle with
      | some oldH => ⟨a2, none, [WafEvent.swapRoot listeners, WafEvent.closeHandle oldH]⟩
      | none => ⟨a2, none, [WafEvent.swapRoot listeners]⟩

/-- Modelled from the spec: the lifecycle of one compiled engine handle
behind handle.close(), which is external to src/. The comment at waf.go
lines 67-69 states that the old handle will be released only when no more
requests use it. refs counts the in-flight evaluations holding a reference,
closed records that Close was called (the handle stopped being current),
released records that the engine resources were actually freed. -/
structure HandleLife where
  refs : Nat
  closed : Bool
  released : Bool
  deriving Repr, DecidableEq

/-- Modelled from the spec: the transitions of a handle lifecycle. An
evaluation acquires a reference only while the handle is current (not yet
closed); finishing an evaluation drops a reference and frees the resources
when the handle is closed and this was the last reference; Close marks the
handle closed and frees the resources only when no evaluation references
it. -/
inductive LifeStep : HandleLife → HandleLife → Prop where
  | startEval (s : HandleLife) (hc : s.closed = false) :
      LifeStep s ⟨s.refs + 1, s.closed, s.released⟩
  | finishEval (s : HandleLife) (n : Nat) (hr : s.refs = n + 1) :
      LifeStep s ⟨n, s.closed, s.released || (s.closed && decide (n = 0))⟩
  | close (s : HandleLife) (hc : s.closed = false) :
      LifeStep s ⟨s.refs, true, decide (s.refs = 0)⟩

/-- The lifecycle state of a freshly installed handle: no references, not
closed, not released. -/
def HandleLife.init : HandleLife := ⟨0, false, false⟩

/-- The lifecycle states reachable from a freshly installed handle. -/
inductive LifeReachable : HandleLife → Prop where
  | init : LifeReachable HandleLife.init
  | step (s t : HandleLife) : LifeReachable s → LifeStep s t → LifeReachable t

/-- Modelled from the spec: the state of the dyngo operation bus (the dyngo
package is not under src/). Section 4.1 of the spec: SwapRootOperation
atomically replaces the process-wide root; a StartOperation call captures
the listener tree of the current root at start time and never re-resolves
it. The state records the current root, every root ever installed, and
every started operation with its captured listener snapshot. -/
structure BusState where
  root : List Listener
  installedRoots : List (List Listener)
  ops : List (Nat × List Listener)

/-- Modelled from the spec: the interleaved transitions of the bus. The
root substitution is a single atomic assignment; a start reads the root
once and stores the complete snapshot with the operation. -/
inductive BusStep : BusState → BusState → Prop where
  | swapRootOperation (s : BusState) (newRoot : List Listener) :
      BusStep s ⟨newRoot, s.installedRoots ++ [newRoot], s.ops⟩
  | startOperation (s : BusState) (id : Nat) :
      BusStep s ⟨s.root, s.installedRoots, s.ops ++ [(id, s.root)]⟩

/-- The initial bus state, holding the first installed root. -/
def BusState.start (r0 : List Listener) : BusState := ⟨r0, [r0], []⟩

/-- The bus states reachable from an initial root by any interleaving of
swaps and operation starts. -/
inductive BusReachable (r0 : List Listener) : BusState → Prop where
  | init : BusReachable r0 (BusState.start r0)
  | step (s t : BusState) : BusReachable r0 s → BusStep s t → BusReachable r0 t

/-- Per-category compile diagnostics (waf.DiagnosticEntry as used by the
sources): loaded rule IDs, failed rule IDs and a mapping from error message
to affected rule IDs, kept as an association list. -/
structure DiagnosticEntry where
  Loaded : List String
  Failed : List String
  Errors : List (String × List String)
  deriving Repr, DecidableEq

/-- Compile diagnostics (waf.Diagnostics as used by the sources): engine
version and the rules entry. -/
structure Diagnostics where
  Version : String
  Rules : Option DiagnosticEntry
  deriving Repr, DecidableEq

/-- A span tag value: the tags of the rules-monitoring contract are strings
or integers. -/
inductive TagValue where
  | str (s : String)
  | int (n : Int)
  deriving Repr, DecidableEq

/-- Modelled from the spec: the TagsHolder, a key to tag-value accumulator,
represented as a lookup function. -/
def TagsHolder : Type := String → Option TagValue

/-- Adds one tag to the holder, overriding a previous value of the key. -/
def TagsHolder.addTag (th : TagsHolder) (k : String) (v : TagValue) : TagsHolder :=
  fun q => if q = k then some v else th q

/-- Tag key for the rule-set version (waf.go line 23). -/
def eventRulesVersionTag : String := "_dd.appsec.event_rules.version"

/-- Tag key for the serialized error mapping (waf.go line 24). -/
def eventRulesErrorsTag : String := "_dd.appsec.event_rules.errors"

/-- Tag key for the count of loaded rules (waf.go line 25). -/
def eventRulesLoadedTag : String := "_dd.appsec.event_rules.loaded"

/-- Tag key for the count of failed rules (waf.go line 26). -/
def eventRulesFailedTag : String := "_dd.appsec.event_rules.error_count"

/-- Unary length prefix used by the serialization of the error mapping. -/
def encNat (n : Nat) : List Char := List.replicate n '1' ++ [':']

/-- Decodes a unary length prefix, returning the length and the rest. -/
def decNat : List Char → Option (Nat × List Char)
  | [] => none
  | c :: r =>
    if c = '1' then (decNat r).map (fun q => (q.1 + 1, q.2))
    else if c = ':' then some (0, r)
    else none

/-- Length-prefixed encoding of one string of characters. -/
def encStr (s : List Char) : List Char := encNat s.length ++ s

/-- Decodes one length-prefixed string, returning it and the rest. -/
def decStr (l : List Char) : Option (List Char × List Char) :=
  match decNat l with
  | some (n, r) => if n ≤ r.length then some (r.take n, r.drop n) else none
  | none => none

/-- Concatenated encoding of a list of strings. -/
def encStrs : List (List Char) → List Char
  | [] => []
  | s :: ss => encStr s ++ encStrs ss

/-- Decodes a known number of length-prefixed strings. -/
def decStrs : Nat → List Char → Option (List (List Char) × List Char)
  | 0, l => some ([], l)
  | n + 1, l =>
    match decStr l with
    | some (s, r) =>
      match decStrs n r with
      | some (ss, r2) => some (s :: ss, r2)
      | none => none
    | none => none

/-- Encoding of one error-mapping entry: the message followed by the
counted list of affected rule IDs. -/
def encEntry (e : String × List String) : List Char :=
  encStr e.1.data ++ encNat e.2.length ++ encStrs (e.2.map String.data)

/-- Concatenated encoding of the error-mapping entries. -/
def encEntries : List (String × List String) → List Char
  | [] => []
  | e :: es => encEntry e ++ encEntries es

/-- Decodes one error-mapping entry. -/
def decEntry (l : List Char) : Option ((String × List String) × List Char) :=
  match decStr l with
  | some (k, r) =>
    match decNat r with
    | some (n, r2) =>
      match decStrs n r2 with
      | some (vs, r3) => some ((String.mk k, vs.map String.mk), r3)
      | none => none
    | none => none
  | none => none

/-- Decodes a known number of error-mapping entries. -/
def decEntries : Nat → List Char → Option (List (String × List String) × List Char)
  | 0, l => some ([], l)
  | n + 1, l =>
    match decEntry l with
    | some (e, r) =>
      match decEntries n r with
      | some (es, r2) => some (e :: es, r2)
      | none => none
    | none => none

/-- Modelled from the spec: the error mapping is serialized as one string
tag (section 4.5). The encoding is a counted sequence of entries. -/
def serializeErrors (m : List (String × List String)) : String :=
  String.mk (encNat m.length ++ encEntries m)

/-- Deserializes the error-mapping string back into the mapping. -/
def deserializeErrors (s : String) : Option (List (String × List String)) :=
  match decNat s.data with
  | some (n, r) =>
    match decEntries n r with
    | some (es, r2) => if r2 = [] then some es else none
    | none => none
  | none => none

/-- Modelled from the spec: AddRulesMonitoringTags of the sharedsec
listener package, which is not under src/ (only its test is). Per sections
4.5 and 6 of the spec and the test TestTagsTypes, after a successful
compile it writes the rule-set version, the serialized error mapping as one
string tag, the count of loaded rules and the count of failed rules, using
the keys of waf.go lines 22-31. Absent rules diagnostics produce no tags. -/
def AddRulesMonitoringTags (th : TagsHolder) (d : Diagnostics) : TagsHolder :=
  match d.Rules with
  | none => th
  | some rInfo =>
    (((th.addTag eventRulesErrorsTag
        (TagValue.str (serializeErrors rInfo.Errors))).addTag
      eventRulesLoadedTag (TagValue.int rInfo.Loaded.length)).addTag
      eventRulesFailedTag (TagValue.int rInfo.Failed.length)).addTag
      eventRulesVersionTag (TagValue.str d.Version)

/-- One step of the search for the entry that decides a registry key: a
later entry whose ID matches and whose type is recognized supersedes an
earlier one. -/
def lastStep (k : String) (acc : Option ActionEntry) (e : ActionEntry) : Option ActionEntry :=
  if e.ID == k && (actionFromEntry e).isSome then some e else acc

/-- The last declared entry that stores the given registry key: its ID
matches the key and its type is recognized, so actionFromEntry yields an
action for it. -/
def lastActionFor (entries : List ActionEntry) (k : String) : Option ActionEntry :=
  entries.foldl (lastStep k) none

/-- Fixture: a capability function supporting no address at all. -/
def supportsNone : Support := fun _ _ => false

/-- Fixture: a capability function under which the query address is shared
by the GraphQL and HTTP protocols and the client-ip address belongs to HTTP
only. -/
def supportsShared : Support := fun p a =>
  match p with
  | .graphql => a == "server.request.query"
  | .grpc => false
  | .http => a == "server.request.query" || a == "http.client_ip"

/-- Fixture: a configuration with a concrete timeout and API security
value. -/
def cfgW : Config := ⟨1000, 7⟩

/-- Fixture: a rules fragment declaring no action entry. -/
def emptyRules : RulesFragment := ⟨[]⟩

/-- Fixture: an action entry with the reserved ID block but an unknown
type, so it yields no action. -/
def entryBogusBlock : ActionEntry := ⟨"block", "bogus", ⟨0, none, "", ""⟩⟩

/-- Fixture: a rules fragment whose only action entry is the unknown-typed
entry with ID block. -/
def rulesBogusBlock : RulesFragment := ⟨[entryBogusBlock]⟩

/-- Fixture: an action entry overriding the block key with a recognized
block_request type. -/
def entryCustomBlock : ActionEntry := ⟨"block", "block_request", ⟨401, some 14, "json", ""⟩⟩

/-- Fixture: a rules fragment overriding the block key. -/
def rulesCustomBlock : RulesFragment := ⟨[entryCustomBlock]⟩

/-- Fixture: an action entry with a fresh ID and an unknown type. -/
def entryCustom : ActionEntry := ⟨"custom-1", "weird_action", ⟨0, none, "", ""⟩⟩

/-- Fixture: a block_request entry whose gRPC status parameter is absent. -/
def entryNoGrpc : ActionEntry := ⟨"blk-custom", "block_request", ⟨418, none, "html", ""⟩⟩

/-- Fixture: a successful compile whose handle advertises the shared query
address. -/
def outOK : CompileOutcome := ⟨none, ⟨1, ["server.request.query"]⟩⟩

/-- Fixture: a successful compile whose handle advertises one address that
no protocol supports. -/
def outUnsupported : CompileOutcome := ⟨none, ⟨2, ["rule.unknown_address"]⟩⟩

/-- Fixture: a successful compile whose handle advertises no address. -/
def outNoAddresses : CompileOutcome := ⟨none, ⟨3, []⟩⟩

/-- Fixture: a failed compile. -/
def outCompileError : CompileOutcome := ⟨some "compile failed", ⟨4, []⟩⟩

/-- Fixture: a previously installed handle. -/
def oldHandleW : wafHandle := ⟨⟨0, ["http.client_ip"]⟩, fun _ => none⟩

/-- Fixture: a handle whose advertised address list is empty. -/
def emptyAddrHandle : wafHandle := ⟨⟨3, []⟩, fun _ => none⟩

/-- Fixture: a manager state holding the previously installed handle. -/
def appsecW : appsec := ⟨cfgW, 5, some oldHandleW⟩

/-- Fixture: a handle advertising one GraphQL-and-HTTP address and one
HTTP-only address. -/
def handleW : wafHandle := ⟨⟨9, ["server.request.query", "http.client_ip"]⟩, fun _ => none⟩

/-- Fixture: one constructed HTTP listener used to exercise the bus
model. -/
def listenerW : Listener :=
  ⟨.http, ⟨1, ["server.request.query"]⟩, fun _ => none,
    {"server.request.query"}, 1000, 5, some 7⟩

/-- Fixture: the bus state after installing a root with one listener over
the empty initial root and starting one operation. -/
def busTrace2 : BusState := ⟨[listenerW], [[], [listenerW]], [(0, [listenerW])]⟩

/-- Fixture: a diagnostics entry mirroring the shared_test.go fixture: ten
loaded rules, one failed rule, one error message affecting two rules. -/
def diagEntryW : DiagnosticEntry :=
  ⟨["0", "1", "2", "3", "4", "5", "6", "7", "8", "9"], ["1337"], [("test", ["1", "2"])]⟩

/-- Fixture: diagnostics carrying the version and the entry fixture. -/
def diagW : Diagnostics := ⟨"1.3.0", some diagEntryW⟩

/-- Folding the last-writer search from any accumulator factors through the
fold from the empty accumulator. -/
theorem lastStep_foldl_acc (k : String) (t : List ActionEntry) :
    ∀ acc : Option ActionEntry,
      t.foldl (lastStep k) acc = Option.or (t.foldl (lastStep k) none) acc := by
  induction t with
  | nil => intro acc; cases acc <;> rfl
  | cons e t ih =>
    intro acc
    simp only [List.foldl_cons]
    by_cases h : (e.ID == k && (actionFromEntry e).isSome) = true
    · rw [show lastStep k acc e = some e from by simp [lastStep, h],
        show lastStep k none e = some e from by simp [lastStep, h], ih (some e)]
      cases t.foldl (lastStep k) none <;> rfl
    · rw [show lastStep k acc e = acc from by simp [lastStep, h],
        show lastStep k none e = none from by simp [lastStep, h], ih acc]

/-- A hit of the last-writer search satisfies the search predicate: its ID
is the key and its type is recognized. -/
theorem lastStep_foldl_some (k : String) (t : List ActionEntry) :
    ∀ (acc : Option ActionEntry) (e : ActionEntry), t.foldl (lastStep k) acc = some e →
      (e.ID = k ∧ (actionFromEntry e).isSome = true) ∨ acc = some e := by
  induction t with
  | nil => intro acc e h; right; exact h
  | cons f t ih =>
    intro acc e h
    simp only [List.foldl_cons] at h
    rcases ih _ e h with hl | hr
    · left; exact hl
    · unfold lastStep at hr
      by_cases hp : (f.ID == k && (actionFromEntry f).isSome) = true
      · rw [if_pos hp] at hr
        rw [Bool.and_eq_true] at hp
        rcases hp with ⟨hid, hsome⟩
        cases hr
        left
        exact ⟨eq_of_beq hid, hsome⟩
      · rw [if_neg hp] at hr
        right
        exact hr

/-- An entry found by lastActionFor has the looked-up ID and a recognized
type. -/
theorem lastActionFor_spec (t : List ActionEntry) (k : String) (e : ActionEntry)
    (h : lastActionFor t k = some e) :
    e.ID = k ∧ (actionFromEntry e).isSome = true := by
  rcases lastStep_foldl_some k t none e h with hl | hr
  · exact hl
  · exact absurd hr (by simp)

/-- The action registry built by the newWAFHandle loop maps a key to the
action of the last recognized entry declaring it, falling back to the
initial registry. -/
theorem foldl_registerEntry_lookup (t : List ActionEntry) :
    ∀ (init : Actions) (k : String),
      t.foldl registerEntry init k =
        match lastActionFor t k with
        | some e => actionFromEntry e
        | none => init k := by
  induction t with
  | nil => intro init k; rfl
  | cons e t ih =>
    intro init k
    simp only [List.foldl_cons, lastActionFor] at *
    rw [lastStep_foldl_acc k t (lastStep k none e), ih (registerEntry init e) k]
    cases hfold : t.foldl (lastStep k) none with
    | some e2 => rfl
    | none =>
      unfold lastStep
      cases hae : actionFromEntry e with
      | some a =>
        by_cases hid : e.ID == k
        · rw [if_pos (by simp [hid, hae])]
          have : k = e.ID := (eq_of_beq hid).symm
          simp [registerEntry, hae, Actions.set, this]
        · rw [if_neg (by simp [hid])]
          have : ¬k = e.ID := fun hk => hid (by simp [hk])
          simp [registerEntry, hae, Actions.set, this, Option.or]
      | none =>
        rw [if_neg (by simp [hae])]
        simp [registerEntry, hae, Option.or]

/-- Projecting one protocol out of one partition-loop iteration: the
address is inserted exactly when the protocol supports it. -/
theorem partitionStep_ofProtocol (supports : Support) (acc : AddressPartition) (a : String)
    (p : Protocol) :
    (partitionStep supports acc a).ofProtocol p =
      if supports p a then insert a (acc.ofProtocol p) else acc.ofProtocol p := by
  cases p <;> simp [partitionStep, AddressPartition.ofProtocol]

/-- The address set a protocol receives from the partition loop is exactly
the set of advertised addresses that the protocol supports. -/
theorem partitionAddresses_ofProtocol (supports : Support) (l : List String) (p : Protocol) :
    (partitionAddresses supports l).ofProtocol p =
      (l.filter (fun a => supports p a)).toFinset := by
  suffices h : ∀ acc : AddressPartition,
      (l.foldl (partitionStep supports) acc).ofProtocol p =
        acc.ofProtocol p ∪ (l.filter (fun a => supports p a)).toFinset by
    have h0 := h ⟨∅, ∅, ∅, []⟩
    have he : (AddressPartition.mk ∅ ∅ ∅ []).ofProtocol p = ∅ := by
      cases p <;> rfl
    simpa [partitionAddresses, he] using h0
  induction l with
  | nil => intro acc; simp
  | cons a t ih =>
    intro acc
    simp only [List.foldl_cons, List.filter_cons]
    rw [ih, partitionStep_ofProtocol]
    by_cases hs : supports p a = true
    · simp [hs, Finset.insert_union, Finset.union_insert]
    · simp [hs]

/-- The not-supported list produced by the partition loop is exactly the
list of advertised addresses supported by no protocol, in order. -/
theorem partitionAddresses_notSupported (supports : Support) (l : List String) :
    (partitionAddresses supports l).notSupported =
      l.filter (fun a =>
        !(supports .graphql a || supports .grpc a || supports .http a)) := by
  suffices h : ∀ acc : AddressPartition,
      (l.foldl (partitionStep supports) acc).notSupported =
        acc.notSupported ++ l.filter (fun a =>
          !(supports .graphql a || supports .grpc a || supports .http a)) by
    simpa [partitionAddresses] using h ⟨∅, ∅, ∅, []⟩
  induction l with
  | nil => intro acc; simp
  | cons a t ih =>
    intro acc
    simp only [List.foldl_cons, List.filter_cons]
    rw [ih]
    by_cases hs : (supports .graphql a || supports .grpc a || supports .http a) = true
    · simp [partitionStep, hs]
    · simp [partitionStep, hs]

/-- Specialization of the partition characterization to the GraphQL set. -/
theorem partitionAddresses_graphQL (supports : Support) (l : List String) :
    (partitionAddresses supports l).graphQLAddresses =
      (l.filter (fun a => supports .graphql a)).toFinset :=
  partitionAddresses_ofProtocol supports l .graphql

/-- Specialization of the partition characterization to the gRPC set. -/
theorem partitionAddresses_grpc (supports : Support) (l : List String) :
    (partitionAddresses supports l).grpcAddresses =
      (l.filter (fun a => supports .grpc a)).toFinset :=
  partitionAddresses_ofProtocol supports l .grpc

/-- Specialization of the partition characterization to the HTTP set. -/
theorem partitionAddresses_http (supports : Support) (l : List String) :
    (partitionAddresses supports l).httpAddresses =
      (l.filter (fun a => supports .http a)).toFinset :=
  partitionAddresses_ofProtocol supports l .http

/-- Explicit form of the listener factory on a non-empty advertised address
list: per protocol, in the fixed order GraphQL, gRPC, HTTP, one listener
bound to the set of advertised addresses the protocol supports, or nothing
when that set is empty. -/
theorem newWAFEventListeners_eq (supports : Support) (waf : wafHandle) (cfg : Config)
    (l : Limiter) (hne : waf.handle.addresses ≠ []) :
    newWAFEventListeners supports waf cfg l = Except.ok (
      (if (waf.handle.addresses.filter (fun a => supports .graphql a)).toFinset = ∅ then []
       else [⟨.graphql, waf.handle, waf.actions,
          (waf.handle.addresses.filter (fun a => supports .graphql a)).toFinset,
          cfg.WAFTimeout, l, none⟩])
      ++ (if (waf.handle.addresses.filter (fun a => supports .grpc a)).toFinset = ∅ then []
       else [⟨.grpc, waf.handle, waf.actions,
          (waf.handle.addresses.filter (fun a => supports .grpc a)).toFinset,
          cfg.WAFTimeout, l, none⟩])
      ++ (if (waf.handle.addresses.filter (fun a => supports .http a)).toFinset = ∅ then []
       else [⟨.http, waf.handle, waf.actions,
          (waf.handle.addresses.filter (fun a => supports .http a)).toFinset,
          cfg.WAFTimeout, l, some cfg.APISec⟩])) := by
  have hlen : ¬ waf.handle.addresses.length = 0 := by
    simpa [List.length_eq_zero] using hne
  by_cases h1 : (waf.handle.addresses.filter (fun a => supports .graphql a)).toFinset = ∅ <;>
    by_cases h2 : (waf.handle.addresses.filter (fun a => supports .grpc a)).toFinset = ∅ <;>
      by_cases h3 : (waf.handle.addresses.filter (fun a => supports .http a)).toFinset = ∅ <;>
        simp [newWAFEventListeners, hlen, partitionAddresses_graphQL, partitionAddresses_grpc,
          partitionAddresses_http, h1, h2, h3, Nat.pos_iff_ne_zero, Finset.card_eq_zero]

/-- C1 counterexample: for a handle advertising an address that no protocol
supports, listener construction does not fail: it returns an empty listener
list with no error, and the swap proceeds, installing the new handle over
the previously active one and swapping the root to one with no listener. -/
theorem C1_counterexample :
    (newWAFHandle outUnsupported emptyRules).1.handle.addresses = ["rule.unknown_address"]
    ∧ newWAFEventListeners supportsNone (newWAFHandle outUnsupported emptyRules).1 cfgW 5
        = Except.ok []
    ∧ (swapWAF supportsNone outUnsupported emptyRules appsecW).err = none
    ∧ (swapWAF supportsNone outUnsupported emptyRules appsecW).state.wafHandle
        = some (newWAFHandle outUnsupported emptyRules).1
    ∧ (swapWAF supportsNone outUnsupported emptyRules appsecW).events
        = [WafEvent.swapRoot [], WafEvent.closeHandle oldHandleW] :=
  ⟨rfl, rfl, rfl, rfl, rfl⟩

/-- C1 (amended): listener construction fails, with the error message of
waf.go line 122, exactly when the advertised address set is empty, in which
case the swap returns that error, leaves the manager state unchanged and
closes the new handle; when the advertised set is non-empty but no protocol
supports any advertised address, construction succeeds with an empty
listener list. -/
theorem C1_no_supported_addresses :
    (∀ (supports : Support) (waf : wafHandle) (cfg : Config) (l : Limiter),
      waf.handle.addresses = [] →
        newWAFEventListeners supports waf cfg l
          = Except.error "no addresses found in the rule")
    ∧ (∀ (supports : Support) (out : CompileOutcome) (rules : RulesFragment) (a : appsec),
      out.err = none → out.handle.addresses = [] →
        swapWAF supports out rules a
          = ⟨a, some "no addresses found in the rule",
              [WafEvent.closeHandle (newWAFHandle out rules).1]⟩)
    ∧ (∀ (supports : Support) (waf : wafHandle) (cfg : Config) (l : Limiter),
      waf.handle.addresses ≠ [] →
      (∀ (p : Protocol) (a : String), a ∈ waf.handle.addresses → supports p a = false) →
        newWAFEventListeners supports waf cfg l = Except.ok []) := by
  have part1 : ∀ (supports : Support) (waf : wafHandle) (cfg : Config) (l : Limiter),
      waf.handle.addresses = [] →
        newWAFEventListeners supports waf cfg l
          = Except.error "no addresses found in the rule" := by
    intro supports waf cfg l h
    simp [newWAFEventListeners, h]
  refine ⟨part1, ?_, ?_⟩
  · intro supports out rules a herr haddr
    have hswap : swapWAF supports out rules a =
        match out.err with
        | some e => ⟨a, some e, []⟩
        | none =>
          match newWAFEventListeners supports (newWAFHandle out rules).1 a.cfg a.limiter with
          | Except.error e => ⟨a, some e, [WafEvent.closeHandle (newWAFHandle out rules).1]⟩
          | Except.ok listeners =>
            match a.wafHandle with
            | some oldH =>
              ⟨{ a with wafHandle := some (newWAFHandle out rules).1 }, none,
                [WafEvent.swapRoot listeners, WafEvent.closeHandle oldH]⟩
            | none =>
              ⟨{ a with wafHandle := some (newWAFHandle out rules).1 }, none,
                [WafEvent.swapRoot listeners]⟩ := rfl
    rw [hswap, herr,
      part1 supports (newWAFHandle out rules).1 a.cfg a.limiter haddr]
  · intro supports waf cfg l hne hall
    have hlen : ¬ waf.handle.addresses.length = 0 := by
      simpa [List.length_eq_zero] using hne
    have hfil : ∀ p : Protocol, waf.handle.addresses.filter (fun a => supports p a) = [] := by
      intro p
      refine List.filter_eq_nil_iff.mpr ?_
      intro a ha
      simp [hall p a ha]
    simp [newWAFEventListeners, hlen, partitionAddresses_graphQL, partitionAddresses_grpc,
      partitionAddresses_http, hfil]

/-- Witness for C1 (amended) at a handle advertising no address: listener
construction fails with the explicit error of waf.go line 122. -/
theorem C1_no_supported_addresses_witness :
    emptyAddrHandle.handle.addresses = []
    ∧ newWAFEventListeners supportsNone emptyAddrHandle cfgW 5
        = Except.error "no addresses found in the rule" :=
  ⟨rfl, C1_no_supported_addresses.1 supportsNone emptyAddrHandle cfgW 5 rfl⟩

/-- C5: for a handle with a non-empty advertised address set, the factory
builds exactly one listener per protocol whose supported addresses meet the
advertised set, bound to exactly that intersection together with the
handle, the action registry, the configured timeout and the shared limiter
(plus the API security configuration for HTTP); a protocol whose
intersection is empty gets no listener. -/
theorem C5_one_listener_per_supported_protocol (supports : Support) (waf : wafHandle)
    (cfg : Config) (l : Limiter) (hne : waf.handle.addresses ≠ []) :
    ∃ L, newWAFEventListeners supports waf cfg l = Except.ok L
    ∧ (∀ p : Protocol,
        L.filter (fun x => x.protocol == p) =
          (if (waf.handle.addresses.filter (fun a => supports p a)).toFinset = ∅ then []
           else [⟨p, waf.handle, waf.actions,
              (waf.handle.addresses.filter (fun a => supports p a)).toFinset,
              cfg.WAFTimeout, l, if p = .http then some cfg.APISec else none⟩]))
    ∧ (∀ (p : Protocol) (a : String),
        a ∈ (waf.handle.addresses.filter (fun a => supports p a)).toFinset
          ↔ (a ∈ waf.handle.addresses ∧ supports p a = true)) := by
  refine ⟨_, newWAFEventListeners_eq supports waf cfg l hne, ?_, ?_⟩
  · intro p
    cases p <;> rw [List.filter_append, List.filter_append] <;> split_ifs <;>
      simp_all [List.filter_cons]
  · intro p a
    simp [List.mem_toFinset, List.mem_filter]

/-- Witness for C5 at a concrete capability set: the handle advertises a
non-empty address list and the factory result is characterized per
protocol. -/
theorem C5_one_listener_per_supported_protocol_witness :
    handleW.handle.addresses ≠ []
    ∧ ∃ L, newWAFEventListeners supportsShared handleW cfgW 5 = Except.ok L
    ∧ (∀ p : Protocol,
        L.filter (fun x => x.protocol == p) =
          (if (handleW.handle.addresses.filter (fun a => supportsShared p a)).toFinset = ∅ then []
           else [⟨p, handleW.handle, handleW.actions,
              (handleW.handle.addresses.filter (fun a => supportsShared p a)).toFinset,
              cfgW.WAFTimeout, 5, if p = .http then some cfgW.APISec else none⟩]))
    ∧ (∀ (p : Protocol) (a : String),
        a ∈ (handleW.handle.addresses.filter (fun a => supportsShared p a)).toFinset
          ↔ (a ∈ handleW.handle.addresses ∧ supportsShared p a = true)) :=
  ⟨by simp [handleW],
    C5_one_listener_per_supported_protocol supportsShared handleW cfgW 5 (by simp [handleW])⟩

/-- C3: whenever swapWAF returns a non-nil error, the manager state is
unchanged: a compile error is returned unchanged with no side effect, a
listener-construction error closes the new handle before returning, and in
every error case the previous handle stays current and the root operation
is not swapped. -/
theorem C3_swap_all_or_nothing (supports : Support) (out : CompileOutcome)
    (rules : RulesFragment) (a : appsec) :
    (∀ e, out.err = some e →
      swapWAF supports out rules a = ⟨a, some e, []⟩)
    ∧ (∀ e, out.err = none →
      newWAFEventListeners supports (newWAFHandle out rules).1 a.cfg a.limiter
          = Except.error e →
        swapWAF supports out rules a
          = ⟨a, some e, [WafEvent.closeHandle (newWAFHandle out rules).1]⟩)
    ∧ ((swapWAF supports out rules a).err ≠ none →
        (swapWAF supports out rules a).state = a
        ∧ ∀ ls, WafEvent.swapRoot ls ∉ (swapWAF supports out rules a).events) := by
  have hswap : swapWAF supports out rules a =
      match out.err with
      | some e => ⟨a, some e, []⟩
      | none =>
        match newWAFEventListeners supports (newWAFHandle out rules).1 a.cfg a.limiter with
        | Except.error e => ⟨a, some e, [WafEvent.closeHandle (newWAFHandle out rules).1]⟩
        | Except.ok listeners =>
          match a.wafHandle with
          | some oldH =>
            ⟨{ a with wafHandle := some (newWAFHandle out rules).1 }, none,
              [WafEvent.swapRoot listeners, WafEvent.closeHandle oldH]⟩
          | none =>
            ⟨{ a with wafHandle := some (newWAFHandle out rules).1 }, none,
              [WafEvent.swapRoot listeners]⟩ := rfl
  refine ⟨?_, ?_, ?_⟩
  · intro e he
    rw [hswap, he]
  · intro e he hl
    rw [hswap, he, hl]
  · rw [hswap]
    cases he : out.err with
    | some e => simp
    | none =>
      cases hl : newWAFEventListeners supports (newWAFHandle out rules).1 a.cfg a.limiter with
      | error e => simp
      | ok listeners =>
        cases hw : a.wafHandle <;> simp

/-- Witness for C3 at a concrete failed compile: the swap returns the
compile error unchanged and records no side effect. -/
theorem C3_swap_all_or_nothing_witness :
    outCompileError.err = some "compile failed"
    ∧ swapWAF supportsNone outCompileError emptyRules appsecW
        = ⟨appsecW, some "compile failed", []⟩ :=
  ⟨rfl, (C3_swap_all_or_nothing supportsNone outCompileError emptyRules appsecW).1
    "compile failed" rfl⟩

/-- C4 counterexample: the claim as stated fails on a configuration whose
action list contains an entry with ID block of unknown type: that entry
yields no action, so the registry keeps the built-in default instead of
storing the action of the declared entry. -/
theorem C4_counterexample :
    rulesBogusBlock.Actions = [entryBogusBlock]
    ∧ entryBogusBlock.ID = "block"
    ∧ actionFromEntry entryBogusBlock = none
    ∧ (newWAFHandle outOK rulesBogusBlock).1.actions "block" = some defaultBlockAction
    ∧ (newWAFHandle outOK rulesBogusBlock).1.actions "block"
        ≠ actionFromEntry entryBogusBlock := by
  refine ⟨rfl, rfl, rfl, rfl, ?_⟩
  rw [show actionFromEntry entryBogusBlock = none from rfl,
    show (newWAFHandle outOK rulesBogusBlock).1.actions "block" = some defaultBlockAction
      from rfl]
  simp

/-- C4 (amended): the registry entry for the key block is the built-in
default block action with HTTP status 403 unless the action list contains
an entry with ID block of recognized type, in which case the action of the
last such entry is stored instead; unrecognized entries never override. -/
theorem C4_block_default_unless_overridden (out : CompileOutcome) (rules : RulesFragment) :
    ((newWAFHandle out rules).1.actions "block" =
      match lastActionFor rules.Actions "block" with
      | some e => actionFromEntry e
      | none => some defaultBlockAction)
    ∧ (∀ e, lastActionFor rules.Actions "block" = some e →
        e.ID = "block" ∧ (actionFromEntry e).isSome = true) := by
  constructor
  · rw [show (newWAFHandle out rules).1.actions = rules.Actions.foldl registerEntry
        (Actions.set (fun _ => none) "block" defaultBlockAction) from rfl,
      foldl_registerEntry_lookup]
    cases lastActionFor rules.Actions "block" with
    | some e => rfl
    | none => simp [Actions.set]
  · intro e he
    exact lastActionFor_spec _ _ _ he

/-- Witness for C4 at a concrete overriding entry: a declared block_request
entry with ID block replaces the default in the registry. -/
theorem C4_block_default_unless_overridden_witness :
    lastActionFor rulesCustomBlock.Actions "block" = some entryCustomBlock
    ∧ (newWAFHandle outOK rulesCustomBlock).1.actions "block"
        = some (Action.blockRequest 401 14 "json") := by
  have h := C4_block_default_unless_overridden outOK rulesCustomBlock
  refine ⟨rfl, ?_⟩
  rw [h.1]
  rfl

/-- C6 counterexample: the claim as stated fails for an unknown-typed entry
whose ID is block: no other entry sets that ID, yet it is present in the
registry, bound to the built-in default. -/
theorem C6_counterexample :
    rulesBogusBlock.Actions = [entryBogusBlock]
    ∧ actionFromEntry entryBogusBlock = none
    ∧ (newWAFHandle outUnsupported rulesBogusBlock).1.actions entryBogusBlock.ID
        = some defaultBlockAction
    ∧ (newWAFHandle outUnsupported rulesBogusBlock).1.actions entryBogusBlock.ID
        ≠ none := by
  refine ⟨rfl, rfl, rfl, ?_⟩
  rw [show (newWAFHandle outUnsupported rulesBogusBlock).1.actions entryBogusBlock.ID
      = some defaultBlockAction from rfl]
  simp

/-- C6 (amended): an action entry of unknown type yields no action and is
dropped; its ID is absent from the registry unless another recognized entry
sets it or the ID is the always-present built-in key block; handle
construction returns only the compile error, so compilation and the swap
proceed regardless of unknown-typed entries. -/
theorem C6_unknown_action_dropped (e : ActionEntry)
    (h1 : e.typ ≠ "block_request") (h2 : e.typ ≠ "redirect_request") :
    actionFromEntry e = none
    ∧ (∀ (out : CompileOutcome) (rules : RulesFragment),
        lastActionFor rules.Actions e.ID = none → e.ID ≠ "block" →
          (newWAFHandle out rules).1.actions e.ID = none)
    ∧ (∀ (out : CompileOutcome) (rules : RulesFragment),
        (newWAFHandle out rules).2 = out.err) := by
  have hnone : actionFromEntry e = none := by
    unfold actionFromEntry
    split <;> simp_all
  refine ⟨hnone, ?_, fun out rules => rfl⟩
  intro out rules hlast hid
  rw [show (newWAFHandle out rules).1.actions = rules.Actions.foldl registerEntry
      (Actions.set (fun _ => none) "block" defaultBlockAction) from rfl,
    foldl_registerEntry_lookup, hlast]
  simp [Actions.set, hid]

/-- Witness for C6 at a concrete unknown-typed entry with a fresh ID: the
entry yields no action and its ID is absent from the resulting registry. -/
theorem C6_unknown_action_dropped_witness :
    entryCustom.typ ≠ "block_request"
    ∧ entryCustom.typ ≠ "redirect_request"
    ∧ actionFromEntry entryCustom = none
    ∧ (newWAFHandle outOK ⟨[entryCustom]⟩).1.actions entryCustom.ID = none := by
  have h := C6_unknown_action_dropped entryCustom (by decide) (by decide)
  exact ⟨by decide, by decide, h.1, h.2.1 outOK ⟨[entryCustom]⟩ rfl (by decide)⟩

/-- C9: a block_request entry whose grpc_status_code parameter is absent
yields a block action carrying gRPC code 10, and the built-in default block
action carries HTTP status 403, gRPC code 10 and response-content type
auto; it is the registry value of the key block when no recognized entry
overrides it. -/
theorem C9_block_request_grpc_default :
    (∀ e : ActionEntry, e.typ = "block_request" → e.Parameters.GRPCStatusCode = none →
      actionFromEntry e
        = some (Action.blockRequest e.Parameters.StatusCode 10 e.Parameters.typ))
    ∧ defaultBlockAction = Action.blockRequest 403 10 "auto"
    ∧ (∀ (out : CompileOutcome) (rules : RulesFragment),
        lastActionFor rules.Actions "block" = none →
          (newWAFHandle out rules).1.actions "block"
            = some (Action.blockRequest 403 10 "auto")) := by
  refine ⟨?_, rfl, ?_⟩
  · intro e ht hg
    unfold actionFromEntry
    rw [ht, hg]
    rfl
  · intro out rules hlast
    rw [show (newWAFHandle out rules).1.actions = rules.Actions.foldl registerEntry
        (Actions.set (fun _ => none) "block" defaultBlockAction) from rfl,
      foldl_registerEntry_lookup, hlast]
    rfl

/-- Witness for C9 at a concrete block_request entry without a gRPC status
parameter: the constructed action carries gRPC code 10. -/
theorem C9_block_request_grpc_default_witness :
    entryNoGrpc.typ = "block_request"
    ∧ entryNoGrpc.Parameters.GRPCStatusCode = none
    ∧ actionFromEntry entryNoGrpc = some (Action.blockRequest 418 10 "html") :=
  ⟨rfl, rfl, C9_block_request_grpc_default.1 entryNoGrpc rfl rfl⟩

/-- C10: the address-to-protocol assignment is not an exclusive partition:
every advertised address is added to the address set of each protocol that
supports it, and an address is reported as not supported exactly when no
protocol supports it. -/
theorem C10_every_supporting_protocol (supports : Support) (ruleAddresses : List String) :
    (∀ (address : String) (p : Protocol),
      address ∈ ruleAddresses → supports p address = true →
        address ∈ (partitionAddresses supports ruleAddresses).ofProtocol p)
    ∧ (∀ address : String,
        address ∈ (partitionAddresses supports ruleAddresses).notSupported ↔
          (address ∈ ruleAddresses ∧ ∀ p : Protocol, supports p address = false)) := by
  constructor
  · intro address p hmem hsup
    rw [partitionAddresses_ofProtocol, List.mem_toFinset, List.mem_filter]
    exact ⟨hmem, hsup⟩
  · intro address
    rw [partitionAddresses_notSupported, List.mem_filter]
    constructor
    · rintro ⟨hmem, hcond⟩
      refine ⟨hmem, ?_⟩
      intro p
      cases p <;> simp_all
    · rintro ⟨hmem, hall⟩
      refine ⟨hmem, ?_⟩
      simp [hall .graphql, hall .grpc, hall .http]

/-- Witness for C10 at a concrete capability set: the query address is
supported by both the GraphQL and the HTTP protocol and lands in both
address sets, while an unknown address is reported as not supported. -/
theorem C10_every_supporting_protocol_witness :
    "server.request.query"
      ∈ (partitionAddresses supportsShared
          ["server.request.query", "rule.unknown_address"]).ofProtocol .graphql
    ∧ "server.request.query"
      ∈ (partitionAddresses supportsShared
          ["server.request.query", "rule.unknown_address"]).ofProtocol .http
    ∧ "rule.unknown_address"
      ∈ (partitionAddresses supportsShared
          ["server.request.query", "rule.unknown_address"]).notSupported := by
  have h := C10_every_supporting_protocol supportsShared
    ["server.request.query", "rule.unknown_address"]
  refine ⟨h.1 _ .graphql (by simp) (by decide), h.1 _ .http (by simp) (by decide), ?_⟩
  exact (h.2 "rule.unknown_address").mpr ⟨by simp, by intro p; cases p <;> decide⟩

/-- C2: after a successful swap the previously current handle is only
closed, not destroyed inline: the swap records a Close of the old handle,
and under the modelled reference-counted lifecycle resources are released
only in states where no in-flight evaluation holds a reference; a Close
performed while references are held marks the handle closed without
releasing it. -/
theorem C2_old_handle_release_deferred (supports : Support) (out : CompileOutcome)
    (rules : RulesFragment) (a : appsec) (oldH : wafHandle)
    (hold : a.wafHandle = some oldH)
    (hok : (swapWAF supports out rules a).err = none) :
    WafEvent.closeHandle oldH ∈ (swapWAF supports out rules a).events
    ∧ (∀ s : HandleLife, LifeReachable s → s.released = true →
        s.refs = 0 ∧ s.closed = true)
    ∧ (∀ s : HandleLife, s.closed = false → 0 < s.refs →
        ∃ t, LifeStep s t ∧ t.closed = true ∧ t.released = false) := by
  have hswap : swapWAF supports out rules a =
      match out.err with
      | some e => ⟨a, some e, []⟩
      | none =>
        match newWAFEventListeners supports (newWAFHandle out rules).1 a.cfg a.limiter with
        | Except.error e => ⟨a, some e, [WafEvent.closeHandle (newWAFHandle out rules).1]⟩
        | Except.ok listeners =>
          match a.wafHandle with
          | some oldH =>
            ⟨{ a with wafHandle := some (newWAFHandle out rules).1 }, none,
              [WafEvent.swapRoot listeners, WafEvent.closeHandle oldH]⟩
          | none =>
            ⟨{ a with wafHandle := some (newWAFHandle out rules).1 }, none,
              [WafEvent.swapRoot listeners]⟩ := rfl
  refine ⟨?_, ?_, ?_⟩
  · cases he : out.err with
    | some e =>
      rw [hswap, he] at hok
      exact Option.noConfusion hok
    | none =>
      cases hl : newWAFEventListeners supports (newWAFHandle out rules).1 a.cfg a.limiter with
      | error e =>
        rw [hswap, he, hl] at hok
        exact Option.noConfusion hok
      | ok listeners =>
        rw [hswap, he, hl, hold]
        exact List.mem_cons_of_mem _ (List.mem_singleton.mpr rfl)
  · intro s hs
    induction hs with
    | init => intro h; cases h
    | step s t hreach hstep ih =>
      cases hstep with
      | startEval hc =>
        intro h
        rcases ih h with ⟨hrefs, hclosed⟩
        rw [hc] at hclosed
        cases hclosed
      | finishEval n hr =>
        intro h
        rw [Bool.or_eq_true] at h
        rcases h with h | h
        · rcases ih h with ⟨hrefs, hclosed⟩
          rw [hr] at hrefs
          cases hrefs
        · rw [Bool.and_eq_true] at h
          rcases h with ⟨hclosed, hn⟩
          exact ⟨of_decide_eq_true hn, hclosed⟩
      | close hc =>
        intro h
        exact ⟨of_decide_eq_true h, rfl⟩
  · intro s hc hr
    refine ⟨⟨s.refs, true, decide (s.refs = 0)⟩, LifeStep.close s hc, rfl, ?_⟩
    have hne : ¬ s.refs = 0 := Nat.pos_iff_ne_zero.mp hr
    simp [hne]

/-- Witness for C2 at a concrete successful swap over a previously
installed handle. -/
theorem C2_old_handle_release_deferred_witness :
    appsecW.wafHandle = some oldHandleW
    ∧ (swapWAF supportsShared outOK emptyRules appsecW).err = none
    ∧ (WafEvent.closeHandle oldHandleW
        ∈ (swapWAF supportsShared outOK emptyRules appsecW).events
      ∧ (∀ s : HandleLife, LifeReachable s → s.released = true →
          s.refs = 0 ∧ s.closed = true)
      ∧ (∀ s : HandleLife, s.closed = false → 0 < s.refs →
          ∃ t, LifeStep s t ∧ t.closed = true ∧ t.released = false)) :=
  ⟨rfl, rfl,
    C2_old_handle_release_deferred supportsShared outOK emptyRules appsecW oldHandleW rfl rfl⟩

/-- C8: under the modelled bus, root substitution is atomic: every snapshot
held by a started operation is one entirely installed root, never a mix; a
start following a swap observes the whole new root; and the snapshot of an
operation started earlier survives every further step unchanged. -/
theorem C8_swap_root_atomic (r0 : List Listener) :
    (∀ s, BusReachable r0 s → ∀ q ∈ s.ops, q.2 ∈ s.installedRoots)
    ∧ (∀ (s : BusState) (newRoot : List Listener) (id : Nat),
        BusStep s ⟨newRoot, s.installedRoots ++ [newRoot], s.ops⟩
        ∧ BusStep (⟨newRoot, s.installedRoots ++ [newRoot], s.ops⟩ : BusState)
            ⟨newRoot, s.installedRoots ++ [newRoot], s.ops ++ [(id, newRoot)]⟩
        ∧ (id, newRoot) ∈ s.ops ++ [(id, newRoot)])
    ∧ (∀ s t, BusStep s t → ∀ q ∈ s.ops, q ∈ t.ops) := by
  have inv : ∀ s, BusReachable r0 s →
      s.root ∈ s.installedRoots ∧ ∀ q ∈ s.ops, q.2 ∈ s.installedRoots := by
    intro s hs
    induction hs with
    | init => simp [BusState.start]
    | step s t hreach hstep ih =>
      cases hstep with
      | swapRootOperation newRoot =>
        refine ⟨by simp, ?_⟩
        intro q hq
        exact List.mem_append_left _ (ih.2 q hq)
      | startOperation id =>
        refine ⟨ih.1, ?_⟩
        intro q hq
        rcases List.mem_append.mp hq with h | h
        · exact ih.2 q h
        · rw [List.mem_singleton] at h
          rw [h]
          exact ih.1
  refine ⟨fun s hs => (inv s hs).2, ?_, ?_⟩
  · intro s newRoot id
    exact ⟨BusStep.swapRootOperation s newRoot,
      BusStep.startOperation ⟨newRoot, s.installedRoots ++ [newRoot], s.ops⟩ id,
      List.mem_append_right _ (List.mem_singleton.mpr rfl)⟩
  · intro s t hstep q hq
    cases hstep with
    | swapRootOperation newRoot => exact hq
    | startOperation id => exact List.mem_append_left _ hq

/-- Witness for C8 on a concrete two-step trace: after swapping in a root
with one listener and starting an operation, the snapshot captured by the
operation is the entire installed root. -/
theorem C8_swap_root_atomic_witness :
    BusReachable [] busTrace2 ∧ [listenerW] ∈ busTrace2.installedRoots := by
  have hreach : BusReachable [] busTrace2 :=
    BusReachable.step _ _
      (BusReachable.step _ _ BusReachable.init
        (BusStep.swapRootOperation (BusState.start []) [listenerW]))
      (BusStep.startOperation ⟨[listenerW], [[], [listenerW]], []⟩ 0)
  exact ⟨hreach,
    (C8_swap_root_atomic []).1 busTrace2 hreach (0, [listenerW]) (by simp [busTrace2])⟩

/-- Decoding a unary length prefix recovers the length and the rest. -/
theorem decNat_encNat (n : Nat) (r : List Char) : decNat (encNat n ++ r) = some (n, r) := by
  induction n with
  | zero => rfl
  | succ n ih =>
    have h : encNat (n + 1) ++ r = '1' :: (encNat n ++ r) := by
      simp [encNat, List.replicate_succ]
    rw [h]
    simp [decNat, ih]

/-- Decoding a length-prefixed string recovers the string and the rest. -/
theorem decStr_encStr (s : List Char) (r : List Char) :
    decStr (encStr s ++ r) = some (s, r) := by
  have h : encStr s ++ r = encNat s.length ++ (s ++ r) := by simp [encStr]
  rw [h]
  simp only [decStr, decNat_encNat]
  rw [if_pos (by simp)]
  rw [List.take_left, List.drop_left]

/-- Decoding a counted sequence of strings recovers them and the rest. -/
theorem decStrs_encStrs (xs : List (List Char)) (r : List Char) :
    decStrs xs.length (encStrs xs ++ r) = some (xs, r) := by
  induction xs generalizing r with
  | nil => rfl
  | cons s ss ih =>
    have h : encStrs (s :: ss) ++ r = encStr s ++ (encStrs ss ++ r) := by
      simp [encStrs]
    rw [List.length_cons, h]
    simp [decStrs, decStr_encStr, ih]

/-- Decoding one encoded error-mapping entry recovers it and the rest. -/
theorem decEntry_encEntry (e : String × List String) (r : List Char) :
    decEntry (encEntry e ++ r) = some (e, r) := by
  have h : encEntry e ++ r
      = encStr e.1.data ++ (encNat e.2.length ++ (encStrs (e.2.map String.data) ++ r)) := by
    simp [encEntry]
  rw [h]
  simp only [decEntry, decStr_encStr]
  have hlen : e.2.length = (e.2.map String.data).length := by simp
  rw [hlen]
  simp only [decNat_encNat, decStrs_encStrs]
  have h1 : String.mk e.1.data = e.1 := rfl
  have h2 : (e.2.map String.data).map String.mk = e.2 := by
    rw [List.map_map]
    have hid : (String.mk ∘ String.data) = id := funext (fun s => rfl)
    rw [hid, List.map_id]
  rw [h1, h2]

/-- Decoding a counted sequence of entries recovers them and the rest. -/
theorem decEntries_encEntries (es : List (String × List String)) (r : List Char) :
    decEntries es.length (encEntries es ++ r) = some (es, r) := by
  induction es generalizing r with
  | nil => rfl
  | cons e es ih =>
    have h : encEntries (e :: es) ++ r = encEntry e ++ (encEntries es ++ r) := by
      simp [encEntries]
    rw [List.length_cons, h]
    simp [decEntries, decEntry_encEntry, ih]

/-- The error-mapping serialization round-trips. -/
theorem deserialize_serialize (m : List (String × List String)) :
    deserializeErrors (serializeErrors m) = some m := by
  have h : (serializeErrors m).data = encNat m.length ++ encEntries m := rfl
  simp only [deserializeErrors, h, decNat_encNat]
  have h3 := decEntries_encEntries m ([] : List Char)
  rw [List.append_nil] at h3
  simp [h3]

/-- C7: after a successful compile, the monitoring tags report exactly the
number of loaded rules under the loaded key and exactly the number of
failed rules under the error-count key, and the errors key holds one string
that deserializes to a mapping covering every failed-rule error message. -/
theorem C7_rules_monitoring_tags (th : TagsHolder) (d : Diagnostics)
    (rInfo : DiagnosticEntry) (hr : d.Rules = some rInfo) :
    AddRulesMonitoringTags th d eventRulesLoadedTag
      = some (TagValue.int rInfo.Loaded.length)
    ∧ AddRulesMonitoringTags th d eventRulesFailedTag
      = some (TagValue.int rInfo.Failed.length)
    ∧ ∃ s, AddRulesMonitoringTags th d eventRulesErrorsTag = some (TagValue.str s)
      ∧ ∃ es, deserializeErrors s = some es ∧ ∀ q ∈ rInfo.Errors, q ∈ es := by
  have hA : AddRulesMonitoringTags th d =
      (((th.addTag eventRulesErrorsTag
          (TagValue.str (serializeErrors rInfo.Errors))).addTag
        eventRulesLoadedTag (TagValue.int rInfo.Loaded.length)).addTag
        eventRulesFailedTag (TagValue.int rInfo.Failed.length)).addTag
        eventRulesVersionTag (TagValue.str d.Version) := by
    simp [AddRulesMonitoringTags, hr]
  refine ⟨?_, ?_, ?_⟩
  · rw [hA]
    simp [TagsHolder.addTag, eventRulesVersionTag, eventRulesFailedTag, eventRulesLoadedTag]
  · rw [hA]
    simp [TagsHolder.addTag, eventRulesVersionTag, eventRulesFailedTag]
  · refine ⟨serializeErrors rInfo.Errors, ?_, rInfo.Errors,
      deserialize_serialize rInfo.Errors, fun q hq => hq⟩
    rw [hA]
    simp [TagsHolder.addTag, eventRulesVersionTag, eventRulesFailedTag,
      eventRulesLoadedTag, eventRulesErrorsTag]

/-- Witness for C7 at the diagnostics fixture of shared_test.go: ten loaded
rules, one failed rule, one error message. -/
theorem C7_rules_monitoring_tags_witness :
    diagW.Rules = some diagEntryW
    ∧ (AddRulesMonitoringTags (fun _ => none) diagW eventRulesLoadedTag
        = some (TagValue.int diagEntryW.Loaded.length)
      ∧ AddRulesMonitoringTags (fun _ => none) diagW eventRulesFailedTag
        = some (TagValue.int diagEntryW.Failed.length)
      ∧ ∃ s, AddRulesMonitoringTags (fun _ => none) diagW eventRulesErrorsTag
          = some (TagValue.str s)
        ∧ ∃ es, deserializeErrors s = some es ∧ ∀ q ∈ diagEntryW.Errors, q ∈ es) :=
  ⟨rfl, C7_rules_monitoring_tags (fun _ => none) diagW diagEntryW rfl⟩

end DdTraceGo
